import Mathlib

/-!
Verification development for the HSerial access-arbitration core.

The definitions below are a shallow embedding of the C++ sources:
- HSerialAccess.cpp (transition state machine, access-call guard),
- HSerialController.cpp (delegation, default willMakeInactive),
- HSerial.cpp (lockable controller),
- HSerialExceptions.hpp (error sentinels).

Controllers are identified by natural numbers.  The engine is modelled
sequentially: transitions are serialized by the TransitionBlocker queue in the
source, so a single transition runs without interference from other
transitions.  Virtual callbacks are parameters of the model (per-controller
behaviours); a willMakeInactive callback may only affect the pair
(state_accessIsUnblocked, state_numUnreturnedAccessCalls), matching the proof
in the comments of shouldPerformConcurrentActiveControllerChange that user
callbacks cannot change the controller fields during a transition.
-/

namespace HSerial

/-- Error sentinels, from HSerialExceptions.hpp and std exceptions used by the
sources.  controllerRefuses carries the refusing controller id and a reason
(ControllerRefuses); logicError is std logic_error; notActiveController is the
NotActiveController class of HSerialExceptions.hpp; driverError is a
pass-through of errors of the wrapped serial driver. -/
inductive HErr where
  | controllerRefuses (c : Nat) (msg : String)
  | logicError (msg : String)
  | notActiveController (msg : String)
  | driverError (msg : String)
deriving DecidableEq, Repr

/-- Transition callbacks, as events of a trace.  Each constructor records the
controller the callback was invoked on. -/
inductive Event where
  | willRemove (c : Nat)
  | didCancelRemove (c : Nat)
  | didRemove (c : Nat)
  | didAdd (c : Nat)
  | willMakeInactive (c : Nat)
  | didCancelMakeInactive (c : Nat)
  | didMakeInactive (c : Nat)
  | willMakeActive (c : Nat)
  | didMakeActive (c : Nat)
deriving DecidableEq, Repr

/-- The state_ fields of HSerialAccess that the claims are about. -/
structure AccessState where
  currentController : Option Nat
  activeController : Option Nat
  numUnreturnedAccessCalls : Nat
  accessIsUnblocked : Bool
deriving DecidableEq, Repr

/-! ## Delegation (HSerialController.cpp)

The delegate graph maps each controller id to its ordered list of first-degree
delegates.  The recursive C++ traversals carry no fuel; here a fuel argument
makes them structurally recursive, and the C9 theorems show the fuel is
irrelevant above a bound for every graph built through registerDelegate. -/

/-- A delegate graph: each controller id maps to its delegates, in
registration order. -/
abbrev Graph := Nat → List Nat

/-- HSerialController::hasAsDelegateOrSubdelegate (DFS), with fuel. -/
def hasAsDelegateOrSubdelegate (g : Graph) : Nat → Nat → Nat → Bool
  | 0, _, _ => false
  | fuel + 1, c, other =>
      (g c).any fun x => x == other || hasAsDelegateOrSubdelegate g fuel x other

/-- HSerialController::hasAsFirstDegreeDelegate. -/
def hasAsFirstDegreeDelegate (g : Graph) (c other : Nat) : Bool :=
  (g c).contains other

/-- HSerialController::appendDelegatesOfDegree.  Returns the sublist appended
for the given degree (the C++ function appends in place and returns the
count; the count is the length of this list).  Degree 0 appends the
controller itself; degree d + 1 recurses into the delegates. -/
def appendDelegatesOfDegree (g : Graph) : Nat → Nat → List Nat
  | c, 0 => [c]
  | c, d + 1 => (g c).flatMap fun x => appendDelegatesOfDegree g x d

/-- The do-while loop of HSerialController::getControllersList, with fuel:
append the delegates of the current degree and continue while something was
appended. -/
def getControllersListAux (g : Graph) (c : Nat) : Nat → Nat → List Nat → List Nat
  | 0, _, acc => acc
  | fuel + 1, degree, acc =>
      let app := appendDelegatesOfDegree g c degree
      if 0 < app.length then getControllersListAux g c fuel (degree + 1) (acc ++ app)
      else acc

/-- HSerialController::getControllersList: the controller itself followed by
its delegates in breadth-first order (degree 1, 2, ...). -/
def getControllersList (g : Graph) (fuel : Nat) (c : Nat) : List Nat :=
  getControllersListAux g c fuel 1 [c]

/-- The edge list built by successive registerDelegate calls, as a graph.
Delegates keep their registration order (push_back). -/
def graphOfEdges (es : List (Nat × Nat)) : Graph :=
  fun c => (es.filter fun e => e.1 == c).map Prod.snd

/-- HSerialController::registerDelegate on the edge-list representation.
Rejects (none result) a NULL delegate, self-delegation, a duplicate
first-degree delegate, and a delegate that transitively delegates back to the
registering controller (the DFS check, run with fuel that theorem
hasAsDelegateOrSubdelegate_stable shows is sufficient). -/
def registerDelegate (es : List (Nat × Nat)) (c : Nat) (d : Option Nat) :
    Option (List (Nat × Nat)) :=
  match d with
  | none => none
  | some d =>
      if c = d then none
      else if hasAsFirstDegreeDelegate (graphOfEdges es) c d then none
      else if hasAsDelegateOrSubdelegate (graphOfEdges es) (es.length + 1) d c then none
      else some (es ++ [(c, d)])

/-- Edge lists reachable from the empty graph through successful
registerDelegate calls. -/
inductive Built : List (Nat × Nat) → Prop
  | nil : Built []
  | step {es es' : List (Nat × Nat)} {c : Nat} {d : Option Nat} :
      Built es → registerDelegate es c d = some es' → Built es'

/-- Delegation chains: ReachesN g n c d holds when d is reachable from c
through exactly n delegation edges (n at least 1). -/
inductive ReachesN (g : Graph) : Nat → Nat → Nat → Prop
  | single {c d : Nat} : d ∈ g c → ReachesN g 1 c d
  | cons {c d e : Nat} {n : Nat} : d ∈ g c → ReachesN g n d e → ReachesN g (n + 1) c e

/-- A delegate graph is acyclic when no controller reaches itself through
delegation. -/
def Acyclic (g : Graph) : Prop := ∀ c n, ¬ ReachesN g n c c

/-! ## The access object (HSerialAccess.cpp) -/

/-- The behaviour of one controller, as seen by the access object: its
delegates and its virtual callbacks.  willMakeInactive acts on the pair
(state_accessIsUnblocked, state_numUnreturnedAccessCalls) - via
blockAccessCalls / waitForAllAccessCallsToReturn - and may throw.
willRemove may refuse (throw ControllerRefuses) and didMakeActive may
propagate a driver or settings error; the remaining callbacks are noexcept
and do not affect the access state. -/
structure Controller where
  delegates : List Nat := []
  willMakeInactive : Bool × Nat → (Bool × Nat) × Option HErr :=
    fun _ => ((false, 0), none)
  willRemoveRefuses : Bool := false
  didMakeActiveError : Option String := none

/-- A system of controllers: the behaviours plus a traversal fuel bound for
the delegate graph (any bound at least the longest delegation chain). -/
structure Sys where
  ctrls : Nat → Controller
  fuel : Nat

/-- The delegate graph of a system. -/
def Sys.graph (sys : Sys) : Graph := fun c => (sys.ctrls c).delegates

/-- HSerialAccess::isInAccessList: the current controller exists and the
controller is it or one of its delegates or subdelegates. -/
def isInAccessList (sys : Sys) (s : AccessState) (c : Nat) : Bool :=
  match s.currentController with
  | none => false
  | some cc => cc == c || hasAsDelegateOrSubdelegate sys.graph sys.fuel cc c

/-- The destructor of AccessUnblocker: on scope exit, if access calls are
still blocked, unblock them. -/
def unblockerExit (s : AccessState) : AccessState :=
  if s.accessIsUnblocked then s else { s with accessIsUnblocked := true }

/-- HSerialAccess::performTransition: call willMakeInactive on the old active
controller (if any), verify under stateMutex that access calls are blocked
and none are unreturned (calling didCancelMakeInactive and raising a logic
error on failure with an outgoing controller present; force-blocking access
for a NULL outgoing controller), call willMakeActive on the incoming, store
the new active controller (and current controller when requested), then call
didMakeInactive on the outgoing.  Returns the state, the callback trace and
the propagated exception, if any. -/
def performTransition (sys : Sys) (s : AccessState) (newC : Option Nat)
    (alsoSetAsCurrentController : Bool) :
    AccessState × List Event × Option HErr :=
  match s.activeController with
  | some oc =>
      let r := (sys.ctrls oc).willMakeInactive (s.accessIsUnblocked, s.numUnreturnedAccessCalls)
      let s1 : AccessState :=
        { s with accessIsUnblocked := r.1.1, numUnreturnedAccessCalls := r.1.2 }
      match r.2 with
      | some e => (s1, [Event.willMakeInactive oc], some e)
      | none =>
          if s1.accessIsUnblocked then
            (s1, [Event.willMakeInactive oc, Event.didCancelMakeInactive oc],
              some (HErr.logicError "Access calls must be blocked in willMakeInactive."))
          else if 0 < s1.numUnreturnedAccessCalls then
            (s1, [Event.willMakeInactive oc, Event.didCancelMakeInactive oc],
              some (HErr.logicError "There are unreturned access calls after willMakeInactive was called."))
          else
            let s2 : AccessState :=
              { s1 with
                activeController := newC
                currentController :=
                  if alsoSetAsCurrentController then newC else s1.currentController }
            (s2,
              Event.willMakeInactive oc ::
                ((match newC with
                  | some nc => [Event.willMakeActive nc]
                  | none => []) ++ [Event.didMakeInactive oc]),
              none)
  | none =>
      let s1 : AccessState := { s with accessIsUnblocked := false }
      if 0 < s1.numUnreturnedAccessCalls then
        (s1, [], some (HErr.logicError "There are unreturned access calls for a NULL controller."))
      else
        let s2 : AccessState :=
          { s1 with
            activeController := newC
            currentController :=
              if alsoSetAsCurrentController then newC else s1.currentController }
        (s2,
          (match newC with
            | some nc => [Event.willMakeActive nc]
            | none => []),
          none)

/-- HSerialAccess::performActiveControllerChange: performTransition under an
AccessUnblocker scope, then didMakeActive on the incoming controller (which
may throw; the controller stays active). -/
def performActiveControllerChange (sys : Sys) (s : AccessState) (newC : Option Nat) :
    AccessState × List Event × Option HErr :=
  let r := performTransition sys s newC false
  match r.2.2 with
  | some e => (unblockerExit r.1, r.2.1, some e)
  | none =>
      match newC with
      | some nc =>
          match (sys.ctrls nc).didMakeActiveError with
          | some msg =>
              (unblockerExit r.1, r.2.1 ++ [Event.didMakeActive nc],
                some (HErr.driverError msg))
          | none => (unblockerExit r.1, r.2.1 ++ [Event.didMakeActive nc], none)
      | none => (unblockerExit r.1, r.2.1, none)

/-- The willRemove loop of HSerialAccess::performCurrentControllerChange.
Iterates the old access list; each controller that returns normally is pushed
onto the notified list; the first refusal stops the loop.  Returns the
notified list, the trace and the exception. -/
def notifyWillRemove (sys : Sys) : List Nat → List Nat → List Nat × List Event × Option HErr
  | [], notified => (notified, [], none)
  | x :: rest, notified =>
      if (sys.ctrls x).willRemoveRefuses then
        (notified, [Event.willRemove x],
          some (HErr.controllerRefuses x "The controller refuses to be removed."))
      else
        let r := notifyWillRemove sys rest (notified ++ [x])
        (r.1, Event.willRemove x :: r.2.1, r.2.2)

/-- The body of HSerialAccess::performCurrentControllerChange, given the old
access list: notify it with willRemove (recording the notified controllers),
perform the transition, and on an exception from either step call
didCancelRemove on the notified list - in the order the source iterates it -
and re-throw.  On success call didRemove on the old access list, didAdd on
the reversed new access list, then didMakeActive on the new current
controller. -/
def performCurrentControllerChangeFrom (sys : Sys) (s : AccessState) (newC : Option Nat)
    (oldAccessList : List Nat) : AccessState × List Event × Option HErr :=
  let n := notifyWillRemove sys oldAccessList []
  match n.2.2 with
  | some e =>
      (unblockerExit s, n.2.1 ++ n.1.map Event.didCancelRemove, some e)
  | none =>
      let t := performTransition sys s newC true
      match t.2.2 with
      | some e =>
          (unblockerExit t.1, n.2.1 ++ t.2.1 ++ n.1.map Event.didCancelRemove, some e)
      | none =>
          let evR := oldAccessList.map Event.didRemove
          match newC with
          | some nc =>
              let evA := ((getControllersList sys.graph sys.fuel nc).reverse).map Event.didAdd
              match (sys.ctrls nc).didMakeActiveError with
              | some msg =>
                  (unblockerExit t.1,
                    n.2.1 ++ t.2.1 ++ evR ++ evA ++ [Event.didMakeActive nc],
                    some (HErr.driverError msg))
              | none =>
                  (unblockerExit t.1,
                    n.2.1 ++ t.2.1 ++ evR ++ evA ++ [Event.didMakeActive nc], none)
          | none => (unblockerExit t.1, n.2.1 ++ t.2.1 ++ evR, none)

/-- HSerialAccess::performCurrentControllerChange: the body above applied to
the access list of the old current controller (empty when there is none). -/
def performCurrentControllerChange (sys : Sys) (s : AccessState) (newC : Option Nat) :
    AccessState × List Event × Option HErr :=
  performCurrentControllerChangeFrom sys s newC
    (match s.currentController with
      | some c => getControllersList sys.graph sys.fuel c
      | none => [])

/-- HSerialAccess::makeActive, on the queued (serialized) path: an active
controller change when the controller is on the access list (a no-op when it
is already active), a current controller change otherwise. -/
def makeActive (sys : Sys) (s : AccessState) (c : Nat) :
    AccessState × List Event × Option HErr :=
  if isInAccessList sys s c then
    if s.activeController = some c then (s, [], none)
    else performActiveControllerChange sys s (some c)
  else performCurrentControllerChange sys s (some c)

/-- HSerialAccess::makeInactive, on the queued path: an active controller
change to NULL when the controller is active, a no-op otherwise. -/
def makeInactive (sys : Sys) (s : AccessState) (c : Nat) :
    AccessState × List Event × Option HErr :=
  if s.activeController = some c then performActiveControllerChange sys s none
  else (s, [], none)

/-- HSerialAccess::removeFromAccess: a current controller change to NULL when
the controller is the current controller; a logic error when it is on the
access list as a delegate; a no-op when it is not on the access list. -/
def removeFromAccess (sys : Sys) (s : AccessState) (c : Nat) :
    AccessState × List Event × Option HErr :=
  if isInAccessList sys s c then
    if s.currentController = some c then performCurrentControllerChange sys s none
    else
      (s, [],
        some (HErr.logicError
          "Cannot remove controller from access if it is not the current controller."))
  else (s, [], none)

/-! ## Access-call guard (HSerialAccess::AccessGuard) -/

/-- A forwarded access call (HSerialAccess::open, read, write, ...), wrapped
in the AccessGuard scope, in the quiescent case (no transition in progress,
so the guard predicate is immediately true).  The guard constructor checks
that the caller is the active controller - the source throws a logic error
from throwIfNotActiveController - before incrementing the unreturned-calls
counter; the driver runs only after a successful guard construction, and the
guard destructor decrements the counter on every exit path.  Returns the
final state, the value of the counter while the driver ran (none when the
guard refused the call), whether the driver was touched, and the error. -/
def accessCall (s : AccessState) (c : Nat) (driverResult : Option String) :
    AccessState × Option Nat × Bool × Option HErr :=
  if s.activeController = some c then
    let during := s.numUnreturnedAccessCalls + 1
    ({ s with numUnreturnedAccessCalls := during - 1 }, some during, true,
      driverResult.map HErr.driverError)
  else
    (s, none, false,
      some (HErr.logicError "The controller must be active to call this access function."))

/-! ## Drain timeouts (HSerialController.cpp, HSerial.cpp) -/

/-- The drain timeout of the default HSerialController::willMakeInactive,
in milliseconds (HSerialController.cpp line 268). -/
def baseDrainTimeoutMs : Nat := 1500

/-- The drain timeout of the HSerial::willMakeInactive override, in
milliseconds (HSerial.cpp line 271). -/
def hserialDrainTimeoutMs : Nat := 1000

/-- HSerialAccess::waitForAllAccessCallsToReturn: waits, up to the given
timeout, until no access calls are unreturned.  returnsWithin is the
environment: whether the outstanding calls of other threads return within
the given number of milliseconds.  Returns success and the resulting
counter. -/
def waitForAllAccessCallsToReturn (timeoutMs : Nat) (returnsWithin : Nat → Bool)
    (n : Nat) : Bool × Nat :=
  if n = 0 then (true, 0)
  else if returnsWithin timeoutMs then (true, 0)
  else (false, n)

/-- The default HSerialController::willMakeInactive of controller c: block
access calls, wait up to baseDrainTimeoutMs for the drain, throw
ControllerRefuses on timeout. -/
def willMakeInactiveDefault (c : Nat) (returnsWithin : Nat → Bool) :
    Bool × Nat → (Bool × Nat) × Option HErr :=
  fun bn =>
    let w := waitForAllAccessCallsToReturn baseDrainTimeoutMs returnsWithin bn.2
    if w.1 then ((false, w.2), none)
    else ((false, w.2), some (HErr.controllerRefuses c "Access calls have not returned."))

/-! ## The lockable controller (HSerial.cpp) -/

/-- The lock flags of an HSerial controller: isLocked (authoritative for
refusals), isLockedActive (the _isLockedActive field, for user queries) and
the setIsLockedActive flag written by makeActive / makeLockedActive and read
by didMakeActive. -/
structure HSerialState where
  isLocked : Bool := false
  isLockedActive : Bool := false
  setIsLockedActive : Bool := false
deriving DecidableEq, Repr

/-- HSerial::transitionInitiatedExternally: true when no access-management
call is in progress or the access-management call runs on a different
thread.  Threads are identified by naturals. -/
def transitionInitiatedExternally (amCallInProgress : Bool)
    (amCallThread callerThread : Nat) : Bool :=
  !amCallInProgress || amCallThread != callerThread

/-- HSerial::willMakeInactive of the lockable controller L: when the
transition is externally initiated and the controller is locked, throw
ControllerRefuses with the locked reason; otherwise block access calls and
wait up to hserialDrainTimeoutMs for the drain, refusing on timeout. -/
def hserialWillMakeInactive (L : Nat) (ext isLocked : Bool)
    (returnsWithin : Nat → Bool) : Bool × Nat → (Bool × Nat) × Option HErr :=
  fun bn =>
    if ext && isLocked then
      (bn, some (HErr.controllerRefuses L "The controller is locked."))
    else
      let w := waitForAllAccessCallsToReturn hserialDrainTimeoutMs returnsWithin bn.2
      if w.1 then ((false, w.2), none)
      else ((false, w.2), some (HErr.controllerRefuses L "The controller is using the port."))

/-- The flag updates performed by the did-callbacks of HSerial L over a
callback trace: didMakeInactive clears both flags; didMakeActive sets both
flags to setIsLockedActive.  The other callbacks of L and all callbacks of
other controllers leave the flags unchanged. -/
def applyHSerialEvents (L : Nat) : HSerialState → List Event → HSerialState
  | ls, [] => ls
  | ls, e :: rest =>
      applyHSerialEvents L
        (match e with
          | Event.didMakeInactive c =>
              if c = L then { ls with isLocked := false, isLockedActive := false } else ls
          | Event.didMakeActive c =>
              if c = L then
                { ls with isLocked := ls.setIsLockedActive,
                          isLockedActive := ls.setIsLockedActive }
              else ls
          | _ => ls)
        rest

/-- Install the willMakeInactive behaviour of the lockable controller L into
a system (L does not throw from didMakeActive). -/
def hserialSys (L : Nat) (ext : Bool) (ls : HSerialState) (returnsWithin : Nat → Bool)
    (base : Sys) : Sys :=
  { base with
    ctrls := fun c =>
      if c = L then
        { base.ctrls c with
          willMakeInactive := hserialWillMakeInactive L ext ls.isLocked returnsWithin
          didMakeActiveError := none }
      else base.ctrls c }

/-- HSerial::makeInactive: under the AccessManagementGuard (so a transition
triggered by this call is self-initiated: am_callInProgress is true on this
thread and the callback runs on the same thread, hence ext = false), call the
base makeInactive; the did-callbacks update the lock flags. -/
def hserialMakeInactive (L : Nat) (ls : HSerialState) (returnsWithin : Nat → Bool)
    (base : Sys) (s : AccessState) :
    (AccessState × HSerialState) × List Event × Option HErr :=
  let sys := hserialSys L false ls returnsWithin base
  let r := makeInactive sys s L
  ((r.1, applyHSerialEvents L ls r.2.1), r.2.1, r.2.2)

/-- HSerial::makeLockedActive: under the AccessManagementGuard, set
setIsLockedActive and pre-set isLocked, call the base makeActive; on failure
roll back isLocked when the controller did not become active and re-throw;
on success set isLockedActive. -/
def hserialMakeLockedActive (L : Nat) (ls : HSerialState) (returnsWithin : Nat → Bool)
    (base : Sys) (s : AccessState) :
    (AccessState × HSerialState) × List Event × Option HErr :=
  let ls1 : HSerialState := { ls with setIsLockedActive := true, isLocked := true }
  let sys := hserialSys L false ls1 returnsWithin base
  let r := makeActive sys s L
  let ls2 := applyHSerialEvents L ls1 r.2.1
  match r.2.2 with
  | some e =>
      let ls3 := if r.1.activeController = some L then ls2 else { ls2 with isLocked := false }
      ((r.1, ls3), r.2.1, some e)
  | none => ((r.1, { ls2 with isLockedActive := true }), r.2.1, none)

/-! ## Theorems -/

/-- C10: a forwarded access call never changes numUnreturnedAccessCalls on
net: the not-active check precedes the increment, so a rejected call leaves
the counter untouched and never reaches the driver; a call whose guard
construction succeeded runs the driver with the counter incremented and the
matching decrement restores it on every exit path. -/
theorem accessCall_counter_net_zero (s : AccessState) (c : Nat) (d : Option String) :
    (accessCall s c d).1.numUnreturnedAccessCalls = s.numUnreturnedAccessCalls
    ∧ (s.activeController ≠ some c →
        (accessCall s c d).2.1 = none ∧ (accessCall s c d).2.2.1 = false
          ∧ (accessCall s c d).2.2.2 ≠ none)
    ∧ (s.activeController = some c →
        (accessCall s c d).2.1 = some (s.numUnreturnedAccessCalls + 1)
          ∧ (accessCall s c d).2.2.1 = true) := by
  by_cases h : s.activeController = some c <;> simp [accessCall, h]

/-- Witness for accessCall_counter_net_zero: a rejected call (controller 1 is
not active) with two calls in flight leaves the counter at two and does not
touch the driver. -/
theorem accessCall_counter_net_zero_witness :
    (accessCall ⟨some 0, some 0, 2, true⟩ 1 none).1.numUnreturnedAccessCalls = 2
    ∧ (accessCall ⟨some 0, some 0, 2, true⟩ 1 none).2.2.1 = false := by
  have h := accessCall_counter_net_zero ⟨some 0, some 0, 2, true⟩ 1 none
  exact ⟨h.1, (h.2.1 (by decide)).2.1⟩

/-- C3 evidence: when the caller is not the active controller the access-call
guard rejects the call before the driver is touched, but the error it raises
is the logic error of throwIfNotActiveController (HSerialAccess.cpp lines
837-845), not the NotActiveController sentinel that the declaration comment
and the HSerialController.hpp documentation promise. -/
theorem accessCall_rejects_with_logic_error (s : AccessState) (c : Nat)
    (d : Option String) (h : s.activeController ≠ some c) :
    (accessCall s c d).2.2.1 = false
    ∧ (accessCall s c d).2.2.2 =
        some (HErr.logicError "The controller must be active to call this access function.")
    ∧ ∀ msg, (accessCall s c d).2.2.2 ≠ some (HErr.notActiveController msg) := by
  simp [accessCall, h]

/-- Witness for accessCall_rejects_with_logic_error: controller 1 calls while
controller 0 is active. -/
theorem accessCall_rejects_with_logic_error_witness :
    (accessCall ⟨some 0, some 0, 0, true⟩ 1 none).2.2.1 = false
    ∧ (accessCall ⟨some 0, some 0, 0, true⟩ 1 none).2.2.2 =
        some (HErr.logicError "The controller must be active to call this access function.") := by
  have h := accessCall_rejects_with_logic_error ⟨some 0, some 0, 0, true⟩ 1 none (by decide)
  exact ⟨h.1, h.2.1⟩

/-- C8: removeFromAccess raises a logic error when the controller is on the
access list but is not the current controller (a delegate), leaving the state
unchanged with no callbacks; when the controller is not on the access list at
all it is a no-op. -/
theorem removeFromAccess_delegate_or_absent (sys : Sys) (s : AccessState) (c : Nat) :
    (isInAccessList sys s c = true → s.currentController ≠ some c →
      removeFromAccess sys s c =
        (s, [],
          some (HErr.logicError
            "Cannot remove controller from access if it is not the current controller.")))
    ∧ (isInAccessList sys s c = false → removeFromAccess sys s c = (s, [], none)) := by
  constructor
  · intro h1 h2
    simp [removeFromAccess, h1, h2]
  · intro h1
    simp [removeFromAccess, h1]

/-- Witness for removeFromAccess_delegate_or_absent: controller 1 is a
delegate of the current controller 0, so removal raises the logic error;
controller 5 is not on the access list, so removal is a no-op. -/
theorem removeFromAccess_delegate_or_absent_witness :
    removeFromAccess ⟨fun c => if c = 0 then { delegates := [1] } else {}, 2⟩
        ⟨some 0, some 0, 0, true⟩ 1 =
      (⟨some 0, some 0, 0, true⟩, [],
        some (HErr.logicError
          "Cannot remove controller from access if it is not the current controller."))
    ∧ removeFromAccess ⟨fun c => if c = 0 then { delegates := [1] } else {}, 2⟩
        ⟨some 0, some 0, 0, true⟩ 5 =
      (⟨some 0, some 0, 0, true⟩, [], none) := by
  constructor
  · exact (removeFromAccess_delegate_or_absent _ _ 1).1 (by decide) (by decide)
  · exact (removeFromAccess_delegate_or_absent _ _ 5).2 (by decide)

/-- C6: the default willMakeInactive of the base controller blocks access
calls and drains with a 1500 ms timeout, refusing when the outstanding calls
do not return within it; the lockable override drains the same way but with a
1000 ms timeout. -/
theorem willMakeInactive_drain_timeouts (c L : Nat) (rw : Nat → Bool) (ub lk : Bool)
    (n : Nat) :
    baseDrainTimeoutMs = 1500
    ∧ hserialDrainTimeoutMs = 1000
    ∧ (willMakeInactiveDefault c rw (ub, n)).1.1 = false
    ∧ ((willMakeInactiveDefault c rw (ub, n)).2 = none ↔ (n = 0 ∨ rw 1500 = true))
    ∧ ((willMakeInactiveDefault c rw (ub, n)).2 ≠ none →
        (willMakeInactiveDefault c rw (ub, n)).2 =
          some (HErr.controllerRefuses c "Access calls have not returned."))
    ∧ ((hserialWillMakeInactive L false lk rw (ub, n)).1.1 = false)
    ∧ ((hserialWillMakeInactive L false lk rw (ub, n)).2 = none ↔ (n = 0 ∨ rw 1000 = true))
    ∧ ((hserialWillMakeInactive L false lk rw (ub, n)).2 ≠ none →
        (hserialWillMakeInactive L false lk rw (ub, n)).2 =
          some (HErr.controllerRefuses L "The controller is using the port.")) := by
  refine ⟨rfl, rfl, ?_, ?_, ?_, ?_, ?_, ?_⟩ <;>
    by_cases hn : n = 0 <;>
      by_cases h15 : rw 1500 = true <;>
        by_cases h10 : rw 1000 = true <;>
          simp [willMakeInactiveDefault, hserialWillMakeInactive,
            waitForAllAccessCallsToReturn, baseDrainTimeoutMs, hserialDrainTimeoutMs,
            hn, h15, h10]

/-- Witness for willMakeInactive_drain_timeouts: with one unreturned call
that returns within 1000 ms both drains succeed. -/
theorem willMakeInactive_drain_timeouts_witness :
    (willMakeInactiveDefault 0 (fun _ => true) (true, 1)).2 = none
    ∧ (hserialWillMakeInactive 0 false true (fun _ => true) (true, 1)).2 = none := by
  have h := willMakeInactive_drain_timeouts 0 0 (fun _ => true) true true 1
  exact ⟨h.2.2.2.1.mpr (Or.inr rfl), h.2.2.2.2.2.2.1.mpr (Or.inr rfl)⟩

/-- C1: in every transition (performTransition serves both the active-swap
and the current-change), when the transition commits the state written has
access calls blocked and no unreturned access calls, and activeController is
written to the new controller; when, after the outgoing active controller's
willMakeInactive returns, access is still unblocked or calls are unreturned,
the swap is not performed, didCancelMakeInactive is called on the outgoing
controller and a logic error is raised. -/
theorem performTransition_swap_checks (sys : Sys) (s : AccessState) (newC : Option Nat)
    (alsoCur : Bool) :
    ((performTransition sys s newC alsoCur).2.2 = none →
      ((performTransition sys s newC alsoCur).1.accessIsUnblocked = false
        ∧ (performTransition sys s newC alsoCur).1.numUnreturnedAccessCalls = 0
        ∧ (performTransition sys s newC alsoCur).1.activeController = newC))
    ∧ (∀ oc ub n,
        s.activeController = some oc →
        (sys.ctrls oc).willMakeInactive (s.accessIsUnblocked, s.numUnreturnedAccessCalls)
          = ((ub, n), none) →
        (ub = true ∨ 0 < n) →
        ((performTransition sys s newC alsoCur).1.activeController = s.activeController
          ∧ (performTransition sys s newC alsoCur).1.currentController = s.currentController
          ∧ (∃ msg, (performTransition sys s newC alsoCur).2.2 = some (HErr.logicError msg))
          ∧ Event.didCancelMakeInactive oc ∈ (performTransition sys s newC alsoCur).2.1)) := by
  constructor
  · intro hnone
    cases hA : s.activeController with
    | none =>
        by_cases hn : 0 < s.numUnreturnedAccessCalls <;>
          simp_all [performTransition, hA, hn]
    | some oc =>
        rcases hr : (sys.ctrls oc).willMakeInactive
            (s.accessIsUnblocked, s.numUnreturnedAccessCalls) with ⟨⟨ub, n⟩, exc⟩
        cases exc with
        | some e => simp_all [performTransition, hA, hr]
        | none =>
            cases ub <;> by_cases hn : 0 < n <;>
              simp_all [performTransition, hA, hr]
  · intro oc ub n hA hr hbad
    have : ub = true ∨ (ub = false ∧ 0 < n) := by
      cases ub
      · rcases hbad with h | h
        · exact absurd h (by simp)
        · exact Or.inr ⟨rfl, h⟩
      · exact Or.inl rfl
    rcases this with hub | ⟨hub, hn⟩ <;>
      simp_all [performTransition, hA, hr]

/-- Witness for performTransition_swap_checks: a clean transition writes
activeController with calls blocked and drained; a buggy willMakeInactive of
controller 0 that leaves access unblocked aborts the swap after
didCancelMakeInactive. -/
theorem performTransition_swap_checks_witness :
    (performTransition ⟨fun _ => {}, 0⟩ ⟨some 0, some 0, 0, true⟩ (some 1) false).1.activeController
      = some 1
    ∧ (performTransition ⟨fun _ => { willMakeInactive := fun bn => ((true, bn.2), none) }, 0⟩
        ⟨some 0, some 0, 0, true⟩ (some 1) false).1.activeController = some 0
    ∧ Event.didCancelMakeInactive 0 ∈
        (performTransition ⟨fun _ => { willMakeInactive := fun bn => ((true, bn.2), none) }, 0⟩
          ⟨some 0, some 0, 0, true⟩ (some 1) false).2.1 := by
  refine ⟨((performTransition_swap_checks ⟨fun _ => {}, 0⟩ ⟨some 0, some 0, 0, true⟩ (some 1) false).1 (by decide)).2.2, ?_, ?_⟩
  · exact ((performTransition_swap_checks _ ⟨some 0, some 0, 0, true⟩ (some 1) false).2
      0 true 0 rfl rfl (Or.inl rfl)).1
  · exact ((performTransition_swap_checks _ ⟨some 0, some 0, 0, true⟩ (some 1) false).2
      0 true 0 rfl rfl (Or.inl rfl)).2.2.2

/-- C5 amended: for an active-swap between two controllers on the same
access list, with c1 the outgoing active controller and c2 the incoming one,
the callbacks occur in the order c1.willMakeInactive, c2.willMakeActive,
c1.didMakeInactive, c2.didMakeActive (the incoming willMakeActive runs under
stateMutex before the outgoing didMakeInactive, see performTransition);
afterwards the active controller is c2, the current controller is unchanged,
and no willRemove or didAdd callbacks fire. -/
theorem makeActive_swap_callback_order (sys : Sys) (s : AccessState) (c1 c2 : Nat)
    (hA : s.activeController = some c1)
    (hin : isInAccessList sys s c2 = true)
    (hne : c1 ≠ c2)
    (hwmi : (sys.ctrls c1).willMakeInactive (s.accessIsUnblocked, s.numUnreturnedAccessCalls)
      = ((false, 0), none))
    (hdma : (sys.ctrls c2).didMakeActiveError = none) :
    makeActive sys s c2 =
      ({ s with accessIsUnblocked := true, numUnreturnedAccessCalls := 0, activeController := some c2 },
        [Event.willMakeInactive c1, Event.willMakeActive c2,
          Event.didMakeInactive c1, Event.didMakeActive c2],
        none) := by
  have hne2 : s.activeController ≠ some c2 := by simp [hA, hne]
  simp [makeActive, hin, hne2, performActiveControllerChange, performTransition,
    hA, hwmi, hdma, hne, unblockerExit]

/-- Witness for makeActive_swap_callback_order: controller 1 is a delegate of
the active current controller 0 and becomes active by a pure swap. -/
theorem makeActive_swap_callback_order_witness :
    makeActive ⟨fun c => if c = 0 then { delegates := [1] } else {}, 2⟩
        ⟨some 0, some 0, 0, true⟩ 1 =
      (⟨some 0, some 1, 0, true⟩,
        [Event.willMakeInactive 0, Event.willMakeActive 1,
          Event.didMakeInactive 0, Event.didMakeActive 1],
        none) :=
  makeActive_swap_callback_order _ _ 0 1 rfl (by decide) (by decide) rfl rfl

/-- C5 counterexample: in the same swap the trace is willMakeInactive 0,
willMakeActive 1, didMakeInactive 1, didMakeActive 1 - not the order claimed
(outgoing didMakeInactive before incoming willMakeActive). -/
theorem makeActive_swap_claimed_order_false :
    (makeActive ⟨fun c => if c = 0 then { delegates := [1] } else {}, 2⟩
        ⟨some 0, some 0, 0, true⟩ 1).2.1 =
      [Event.willMakeInactive 0, Event.willMakeActive 1,
        Event.didMakeInactive 0, Event.didMakeActive 1]
    ∧ (makeActive ⟨fun c => if c = 0 then { delegates := [1] } else {}, 2⟩
        ⟨some 0, some 0, 0, true⟩ 1).2.1 ≠
      [Event.willMakeInactive 0, Event.didMakeInactive 0,
        Event.willMakeActive 1, Event.didMakeActive 1] := by
  constructor <;> decide

/-- The willRemove loop with no refusal: every controller is notified in
order and pushed onto the notified list. -/
theorem notifyWillRemove_accepts (sys : Sys) (xs : List Nat) (acc : List Nat)
    (h : ∀ x ∈ xs, (sys.ctrls x).willRemoveRefuses = false) :
    notifyWillRemove sys xs acc = (acc ++ xs, xs.map Event.willRemove, none) := by
  induction xs generalizing acc with
  | nil => simp [notifyWillRemove]
  | cons x rest ih =>
      have hx := h x (by simp)
      have hr := ih (acc ++ [x]) fun y hy => h y (by simp [hy])
      simp [notifyWillRemove, hx, hr]

/-- The willRemove loop stopping at the first refuser: the controllers before
it are notified, the refuser is notified but not recorded, and the loop
returns the refusal. -/
theorem notifyWillRemove_refuser (sys : Sys) (l1 : List Nat) (x : Nat) (l2 : List Nat)
    (acc : List Nat)
    (h1 : ∀ y ∈ l1, (sys.ctrls y).willRemoveRefuses = false)
    (hx : (sys.ctrls x).willRemoveRefuses = true) :
    notifyWillRemove sys (l1 ++ x :: l2) acc =
      (acc ++ l1, (l1 ++ [x]).map Event.willRemove,
        some (HErr.controllerRefuses x "The controller refuses to be removed.")) := by
  induction l1 generalizing acc with
  | nil => simp [notifyWillRemove, hx]
  | cons y rest ih =>
      have hy := h1 y (by simp)
      have hr := ih (acc ++ [y]) fun z hz => h1 z (by simp [hz])
      simp [notifyWillRemove, hy, hr]

/-- C4 amended: in a current-change transition in which a willRemove callback
or the outgoing active controller's willMakeInactive throws,
didCancelRemove is called exactly on the controllers that were already
notified via willRemove, in the order of their notification (the source
iterates the notified list forward, not in reverse), and the original
exception is re-thrown to the caller. -/
theorem currentChange_cancel_order (sys : Sys) (s : AccessState) (newC : Option Nat)
    (cc : Nat) (hcc : s.currentController = some cc) :
    (∀ l1 x l2,
      getControllersList sys.graph sys.fuel cc = l1 ++ x :: l2 →
      (∀ y ∈ l1, (sys.ctrls y).willRemoveRefuses = false) →
      (sys.ctrls x).willRemoveRefuses = true →
      performCurrentControllerChange sys s newC =
        (unblockerExit s,
          (l1 ++ [x]).map Event.willRemove ++ l1.map Event.didCancelRemove,
          some (HErr.controllerRefuses x "The controller refuses to be removed.")))
    ∧ (∀ oc ub n e,
      (∀ y ∈ getControllersList sys.graph sys.fuel cc,
        (sys.ctrls y).willRemoveRefuses = false) →
      s.activeController = some oc →
      (sys.ctrls oc).willMakeInactive (s.accessIsUnblocked, s.numUnreturnedAccessCalls)
        = ((ub, n), some e) →
      performCurrentControllerChange sys s newC =
        (unblockerExit
            { s with accessIsUnblocked := ub, numUnreturnedAccessCalls := n },
          (getControllersList sys.graph sys.fuel cc).map Event.willRemove
            ++ [Event.willMakeInactive oc]
            ++ (getControllersList sys.graph sys.fuel cc).map Event.didCancelRemove,
          some e)) := by
  constructor
  · intro l1 x l2 hlist h1 hx
    have hn := notifyWillRemove_refuser sys l1 x l2 [] h1 hx
    simp [performCurrentControllerChange, performCurrentControllerChangeFrom,
      hcc, hlist, hn]
  · intro oc ub n e hacc hA hwmi
    have hn := notifyWillRemove_accepts sys (getControllersList sys.graph sys.fuel cc) [] hacc
    simp [performCurrentControllerChange, performCurrentControllerChangeFrom,
      hcc, hn, performTransition, hA, hwmi]

/-- Witness for currentChange_cancel_order: access list 0, 1, 2 (delegates of
the current controller 0); controller 2 refuses removal, so 0 and 1 receive
didCancelRemove in notification order; and with no refuser, a throwing
willMakeInactive of the active controller 0 cancels all three. -/
theorem currentChange_cancel_order_witness :
    performCurrentControllerChange
        ⟨fun c => if c = 0 then { delegates := [1, 2] }
          else if c = 2 then { willRemoveRefuses := true } else {}, 3⟩
        ⟨some 0, some 0, 0, true⟩ none =
      (⟨some 0, some 0, 0, true⟩,
        [Event.willRemove 0, Event.willRemove 1, Event.willRemove 2,
          Event.didCancelRemove 0, Event.didCancelRemove 1],
        some (HErr.controllerRefuses 2 "The controller refuses to be removed."))
    ∧ performCurrentControllerChange
        ⟨fun c => if c = 0 then { delegates := [1, 2], willMakeInactive := fun bn => (bn, some (HErr.controllerRefuses 0 "no")) } else {}, 3⟩
        ⟨some 0, some 0, 0, true⟩ none =
      (⟨some 0, some 0, 0, true⟩,
        [Event.willRemove 0, Event.willRemove 1, Event.willRemove 2,
          Event.willMakeInactive 0,
          Event.didCancelRemove 0, Event.didCancelRemove 1, Event.didCancelRemove 2],
        some (HErr.controllerRefuses 0 "no")) := by
  constructor
  · exact ((currentChange_cancel_order _ _ none 0 rfl).1 [0, 1] 2 []
      (by decide) (by decide) rfl).trans (by decide)
  · exact ((currentChange_cancel_order _ _ none 0 rfl).2 0 true 0
      (HErr.controllerRefuses 0 "no") (by decide) rfl rfl).trans (by decide)

/-- C4 counterexample: with access list 0, 1, 2 and controller 2 refusing,
the cancel callbacks run as didCancelRemove 0 then didCancelRemove 1 - the
notification order, not the reverse order the claim states. -/
theorem currentChange_cancel_reverse_false :
    (performCurrentControllerChange
        ⟨fun c => if c = 0 then { delegates := [1, 2] }
          else if c = 2 then { willRemoveRefuses := true } else {}, 3⟩
        ⟨some 0, some 0, 0, true⟩ none).2.1 =
      [Event.willRemove 0, Event.willRemove 1, Event.willRemove 2,
        Event.didCancelRemove 0, Event.didCancelRemove 1]
    ∧ (performCurrentControllerChange
        ⟨fun c => if c = 0 then { delegates := [1, 2] }
          else if c = 2 then { willRemoveRefuses := true } else {}, 3⟩
        ⟨some 0, some 0, 0, true⟩ none).2.1 ≠
      [Event.willRemove 0, Event.willRemove 1, Event.willRemove 2,
        Event.didCancelRemove 1, Event.didCancelRemove 0] := by
  constructor <;> decide

/-- The AccessUnblocker exit never touches the controller fields. -/
theorem unblockerExit_controllers (s : AccessState) :
    (unblockerExit s).currentController = s.currentController
    ∧ (unblockerExit s).activeController = s.activeController := by
  unfold unblockerExit
  split <;> simp

/-- When performTransition propagates an exception the controller fields are
not written. -/
theorem performTransition_error_preserves (sys : Sys) (s : AccessState)
    (newC : Option Nat) (alsoCur : Bool)
    (h : (performTransition sys s newC alsoCur).2.2 ≠ none) :
    (performTransition sys s newC alsoCur).1.currentController = s.currentController
    ∧ (performTransition sys s newC alsoCur).1.activeController = s.activeController := by
  cases hA : s.activeController with
  | none =>
      by_cases hn : 0 < s.numUnreturnedAccessCalls <;>
        simp_all [performTransition, hA, hn]
  | some oc =>
      rcases hr : (sys.ctrls oc).willMakeInactive
          (s.accessIsUnblocked, s.numUnreturnedAccessCalls) with ⟨⟨ub, n⟩, exc⟩
      cases exc with
      | some e => simp_all [performTransition, hA, hr]
      | none =>
          cases ub <;> by_cases hn : 0 < n <;>
            simp_all [performTransition, hA, hr]

/-- When performTransition propagates an exception, no didMakeInactive and no
didMakeActive callbacks were invoked. -/
theorem performTransition_error_events (sys : Sys) (s : AccessState)
    (newC : Option Nat) (alsoCur : Bool) (x : Nat)
    (h : (performTransition sys s newC alsoCur).2.2 ≠ none) :
    Event.didMakeInactive x ∉ (performTransition sys s newC alsoCur).2.1
    ∧ Event.didMakeActive x ∉ (performTransition sys s newC alsoCur).2.1 := by
  cases hA : s.activeController with
  | none =>
      by_cases hn : 0 < s.numUnreturnedAccessCalls <;>
        simp_all [performTransition, hA, hn]
  | some oc =>
      rcases hr : (sys.ctrls oc).willMakeInactive
          (s.accessIsUnblocked, s.numUnreturnedAccessCalls) with ⟨⟨ub, n⟩, exc⟩
      cases exc with
      | some e => simp_all [performTransition, hA, hr]
      | none =>
          cases ub <;> by_cases hn : 0 < n <;>
            simp_all [performTransition, hA, hr]

/-- Every event of the willRemove loop is a willRemove callback. -/
theorem notifyWillRemove_events (sys : Sys) (xs : List Nat) :
    ∀ acc, ∀ e ∈ (notifyWillRemove sys xs acc).2.1, ∃ c, e = Event.willRemove c := by
  induction xs with
  | nil => simp [notifyWillRemove]
  | cons x rest ih =>
      intro acc e he
      by_cases hx : (sys.ctrls x).willRemoveRefuses
      · simp [notifyWillRemove, hx] at he
        exact ⟨x, he⟩
      · simp only [notifyWillRemove, hx, Bool.false_eq_true, if_false,
          List.mem_cons] at he
        rcases he with he | he
        · exact ⟨x, he⟩
        · exact ih (acc ++ [x]) e he

/-- A refused active controller change leaves the controller fields
unchanged and invoked no didMakeInactive or didMakeActive callback. -/
theorem performActiveControllerChange_refused (sys : Sys) (s : AccessState)
    (newC : Option Nat) (rc : Nat) (m : String)
    (h : (performActiveControllerChange sys s newC).2.2
      = some (HErr.controllerRefuses rc m)) :
    (performActiveControllerChange sys s newC).1.currentController = s.currentController
    ∧ (performActiveControllerChange sys s newC).1.activeController = s.activeController
    ∧ ∀ x, Event.didMakeInactive x ∉ (performActiveControllerChange sys s newC).2.1
      ∧ Event.didMakeActive x ∉ (performActiveControllerChange sys s newC).2.1 := by
  cases hE : (performTransition sys s newC false).2.2 with
  | some e =>
      have hne : (performTransition sys s newC false).2.2 ≠ none := by simp [hE]
      have hP := performTransition_error_preserves sys s newC false hne
      have hU := unblockerExit_controllers (performTransition sys s newC false).1
      have hres : performActiveControllerChange sys s newC
          = (unblockerExit (performTransition sys s newC false).1,
              (performTransition sys s newC false).2.1, some e) := by
        simp [performActiveControllerChange, hE]
      rw [hres]
      exact ⟨hU.1.trans hP.1, hU.2.trans hP.2,
        fun x => performTransition_error_events sys s newC false x hne⟩
  | none =>
      exfalso
      cases hN : newC with
      | none => simp_all [performActiveControllerChange, hE, hN]
      | some nc =>
          cases hD : (sys.ctrls nc).didMakeActiveError <;>
            simp_all [performActiveControllerChange, hE, hN, hD]

/-- A refused current controller change (from any old access list) leaves the
controller fields unchanged and invoked no didMakeInactive or didMakeActive
callback. -/
theorem performCurrentControllerChangeFrom_refused (sys : Sys) (s : AccessState)
    (newC : Option Nat) (oldList : List Nat) (rc : Nat) (m : String)
    (h : (performCurrentControllerChangeFrom sys s newC oldList).2.2
      = some (HErr.controllerRefuses rc m)) :
    (performCurrentControllerChangeFrom sys s newC oldList).1.currentController
        = s.currentController
    ∧ (performCurrentControllerChangeFrom sys s newC oldList).1.activeController
        = s.activeController
    ∧ ∀ x,
        Event.didMakeInactive x ∉ (performCurrentControllerChangeFrom sys s newC oldList).2.1
        ∧ Event.didMakeActive x ∉ (performCurrentControllerChangeFrom sys s newC oldList).2.1 := by
  cases hW : (notifyWillRemove sys oldList []).2.2 with
  | some e =>
      have hEv := notifyWillRemove_events sys oldList
      have hU := unblockerExit_controllers s
      have hres : performCurrentControllerChangeFrom sys s newC oldList
          = (unblockerExit s,
              (notifyWillRemove sys oldList []).2.1
                ++ (notifyWillRemove sys oldList []).1.map Event.didCancelRemove,
              some e) := by
        simp [performCurrentControllerChangeFrom, hW]
      rw [hres]
      refine ⟨hU.1, hU.2, fun x => ⟨?_, ?_⟩⟩ <;>
        · simp only [List.mem_append, List.mem_map]
          rintro (hmem | ⟨cx, _, hcx⟩)
          · rcases hEv _ _ hmem with ⟨cy, hcy⟩
            simp at hcy
          · simp at hcx
  | none =>
      cases hT : (performTransition sys s newC true).2.2 with
      | some e =>
          have hne : (performTransition sys s newC true).2.2 ≠ none := by simp [hT]
          have hP := performTransition_error_preserves sys s newC true hne
          have hU := unblockerExit_controllers (performTransition sys s newC true).1
          have hEv := notifyWillRemove_events sys oldList
          have hres : performCurrentControllerChangeFrom sys s newC oldList
              = (unblockerExit (performTransition sys s newC true).1,
                  (notifyWillRemove sys oldList []).2.1
                    ++ (performTransition sys s newC true).2.1
                    ++ (notifyWillRemove sys oldList []).1.map Event.didCancelRemove,
                  some e) := by
            simp [performCurrentControllerChangeFrom, hW, hT]
          rw [hres]
          refine ⟨hU.1.trans hP.1, hU.2.trans hP.2, fun x => ⟨?_, ?_⟩⟩ <;>
            · simp only [List.mem_append, List.mem_map]
              rintro ((hmem | hmem) | ⟨cx, _, hcx⟩)
              · rcases hEv _ _ hmem with ⟨cy, hcy⟩
                simp at hcy
              · have := performTransition_error_events sys s newC true x hne
                simp_all
              · simp at hcx
      | none =>
          exfalso
          cases hN : newC with
          | none => simp_all [performCurrentControllerChangeFrom, hW, hT, hN]
          | some nc =>
              cases hD : (sys.ctrls nc).didMakeActiveError <;>
                simp_all [performCurrentControllerChangeFrom, hW, hT, hN, hD]

/-- A refused current controller change leaves the controller fields
unchanged and invoked no didMakeInactive or didMakeActive callback. -/
theorem performCurrentControllerChange_refused (sys : Sys) (s : AccessState)
    (newC : Option Nat) (rc : Nat) (m : String)
    (h : (performCurrentControllerChange sys s newC).2.2
      = some (HErr.controllerRefuses rc m)) :
    (performCurrentControllerChange sys s newC).1.currentController = s.currentController
    ∧ (performCurrentControllerChange sys s newC).1.activeController = s.activeController
    ∧ ∀ x, Event.didMakeInactive x ∉ (performCurrentControllerChange sys s newC).2.1
      ∧ Event.didMakeActive x ∉ (performCurrentControllerChange sys s newC).2.1 :=
  performCurrentControllerChangeFrom_refused sys s newC _ rc m h

/-- A refused makeActive leaves the controller fields unchanged and invoked
no didMakeInactive or didMakeActive callback. -/
theorem makeActive_refused (sys : Sys) (s : AccessState) (c : Nat) (rc : Nat) (m : String)
    (h : (makeActive sys s c).2.2 = some (HErr.controllerRefuses rc m)) :
    (makeActive sys s c).1.currentController = s.currentController
    ∧ (makeActive sys s c).1.activeController = s.activeController
    ∧ ∀ x, Event.didMakeInactive x ∉ (makeActive sys s c).2.1
      ∧ Event.didMakeActive x ∉ (makeActive sys s c).2.1 := by
  by_cases hin : isInAccessList sys s c
  · by_cases hA : s.activeController = some c
    · simp_all [makeActive, hin, hA]
    · have heq : makeActive sys s c = performActiveControllerChange sys s (some c) := by
        simp [makeActive, hin, hA]
      rw [heq] at h ⊢
      exact performActiveControllerChange_refused sys s (some c) rc m h
  · have heq : makeActive sys s c = performCurrentControllerChange sys s (some c) := by
      simp [makeActive, hin]
    rw [heq] at h ⊢
    exact performCurrentControllerChange_refused sys s (some c) rc m h

/-- A refused makeInactive leaves the controller fields unchanged and invoked
no didMakeInactive or didMakeActive callback. -/
theorem makeInactive_refused (sys : Sys) (s : AccessState) (c : Nat) (rc : Nat) (m : String)
    (h : (makeInactive sys s c).2.2 = some (HErr.controllerRefuses rc m)) :
    (makeInactive sys s c).1.currentController = s.currentController
    ∧ (makeInactive sys s c).1.activeController = s.activeController
    ∧ ∀ x, Event.didMakeInactive x ∉ (makeInactive sys s c).2.1
      ∧ Event.didMakeActive x ∉ (makeInactive sys s c).2.1 := by
  by_cases hA : s.activeController = some c
  · have heq : makeInactive sys s c = performActiveControllerChange sys s none := by
      simp [makeInactive, hA]
    rw [heq] at h ⊢
    exact performActiveControllerChange_refused sys s none rc m h
  · simp_all [makeInactive, hA]

/-- A refused removeFromAccess leaves the controller fields unchanged and
invoked no didMakeInactive or didMakeActive callback. -/
theorem removeFromAccess_refused (sys : Sys) (s : AccessState) (c : Nat) (rc : Nat)
    (m : String)
    (h : (removeFromAccess sys s c).2.2 = some (HErr.controllerRefuses rc m)) :
    (removeFromAccess sys s c).1.currentController = s.currentController
    ∧ (removeFromAccess sys s c).1.activeController = s.activeController
    ∧ ∀ x, Event.didMakeInactive x ∉ (removeFromAccess sys s c).2.1
      ∧ Event.didMakeActive x ∉ (removeFromAccess sys s c).2.1 := by
  by_cases hin : isInAccessList sys s c
  · by_cases hC : s.currentController = some c
    · have heq : removeFromAccess sys s c = performCurrentControllerChange sys s none := by
        simp [removeFromAccess, hin, hC]
      rw [heq] at h ⊢
      exact performCurrentControllerChange_refused sys s none rc m h
    · simp_all [removeFromAccess, hin, hC]
  · simp_all [removeFromAccess, hin]

/-- A trace without didMakeInactive or didMakeActive callbacks on L leaves
the lock flags of L unchanged. -/
theorem applyHSerialEvents_id (L : Nat) (evs : List Event)
    (h1 : Event.didMakeInactive L ∉ evs) (h2 : Event.didMakeActive L ∉ evs) :
    ∀ ls, applyHSerialEvents L ls evs = ls := by
  induction evs with
  | nil => intro ls; rfl
  | cons e rest ih =>
      intro ls
      have h1r : Event.didMakeInactive L ∉ rest := fun hm => h1 (List.mem_cons_of_mem _ hm)
      have h2r : Event.didMakeActive L ∉ rest := fun hm => h2 (List.mem_cons_of_mem _ hm)
      cases e with
      | didMakeInactive cx =>
          have hne : ¬ cx = L := fun hEq => h1 (by simp [hEq])
          simpa [applyHSerialEvents, hne] using ih h1r h2r ls
      | didMakeActive cx =>
          have hne : ¬ cx = L := fun hEq => h2 (by simp [hEq])
          simpa [applyHSerialEvents, hne] using ih h1r h2r ls
      | willRemove cx => simpa [applyHSerialEvents] using ih h1r h2r ls
      | didCancelRemove cx => simpa [applyHSerialEvents] using ih h1r h2r ls
      | didRemove cx => simpa [applyHSerialEvents] using ih h1r h2r ls
      | didAdd cx => simpa [applyHSerialEvents] using ih h1r h2r ls
      | willMakeInactive cx => simpa [applyHSerialEvents] using ih h1r h2r ls
      | didCancelMakeInactive cx => simpa [applyHSerialEvents] using ih h1r h2r ls
      | willMakeActive cx => simpa [applyHSerialEvents] using ih h1r h2r ls

/-- C2: every makeActive, makeInactive or removeFromAccess call that fails
with ControllerRefuses (thrown from a willRemove or willMakeInactive
callback) leaves the observable state - currentController and
activeController, and for the lockable controller also isLocked and the
observed locked-active flag - equal to its value before the call. -/
theorem refused_state_unchanged (sys : Sys) (s : AccessState) (c rc : Nat) (m : String) :
    ((makeActive sys s c).2.2 = some (HErr.controllerRefuses rc m) →
      (makeActive sys s c).1.currentController = s.currentController
      ∧ (makeActive sys s c).1.activeController = s.activeController)
    ∧ ((makeInactive sys s c).2.2 = some (HErr.controllerRefuses rc m) →
      (makeInactive sys s c).1.currentController = s.currentController
      ∧ (makeInactive sys s c).1.activeController = s.activeController)
    ∧ ((removeFromAccess sys s c).2.2 = some (HErr.controllerRefuses rc m) →
      (removeFromAccess sys s c).1.currentController = s.currentController
      ∧ (removeFromAccess sys s c).1.activeController = s.activeController)
    ∧ (∀ L ls rw,
        s.activeController ≠ some L →
        HSerialState.isLocked ls = false →
        HSerialState.isLockedActive ls = false →
        (hserialMakeLockedActive L ls rw sys s).2.2 = some (HErr.controllerRefuses rc m) →
        (hserialMakeLockedActive L ls rw sys s).1.1.currentController = s.currentController
        ∧ (hserialMakeLockedActive L ls rw sys s).1.1.activeController = s.activeController
        ∧ (hserialMakeLockedActive L ls rw sys s).1.2.isLocked = ls.isLocked
        ∧ (hserialMakeLockedActive L ls rw sys s).1.2.isLockedActive = ls.isLockedActive)
    ∧ (∀ L ls rw,
        (hserialMakeInactive L ls rw sys s).2.2 = some (HErr.controllerRefuses rc m) →
        (hserialMakeInactive L ls rw sys s).1.1.currentController = s.currentController
        ∧ (hserialMakeInactive L ls rw sys s).1.1.activeController = s.activeController
        ∧ (hserialMakeInactive L ls rw sys s).1.2 = ls) := by
  refine ⟨fun h => ⟨(makeActive_refused sys s c rc m h).1, (makeActive_refused sys s c rc m h).2.1⟩,
    fun h => ⟨(makeInactive_refused sys s c rc m h).1, (makeInactive_refused sys s c rc m h).2.1⟩,
    fun h => ⟨(removeFromAccess_refused sys s c rc m h).1, (removeFromAccess_refused sys s c rc m h).2.1⟩,
    ?_, ?_⟩
  · intro L ls rw hL hlk hla h
    obtain ⟨lk, la, sa⟩ := ls
    simp only at hlk hla
    subst hlk
    subst hla
    cases hE : (makeActive (hserialSys L false { isLocked := true, isLockedActive := false, setIsLockedActive := true } rw sys) s L).2.2 with
    | none =>
        exfalso
        simp only [hserialMakeLockedActive] at h
        rw [hE] at h
        simp at h
    | some e =>
        have he : e = HErr.controllerRefuses rc m := by
          simp only [hserialMakeLockedActive] at h
          rw [hE] at h
          simpa using h
        subst he
        have hMA := makeActive_refused
          (hserialSys L false { isLocked := true, isLockedActive := false, setIsLockedActive := true } rw sys)
          s L rc m hE
        have hid := applyHSerialEvents_id L
          (makeActive (hserialSys L false { isLocked := true, isLockedActive := false, setIsLockedActive := true } rw sys) s L).2.1
          (hMA.2.2 L).1 (hMA.2.2 L).2
        have hAct : (makeActive (hserialSys L false { isLocked := true, isLockedActive := false, setIsLockedActive := true } rw sys) s L).1.activeController ≠ some L := by
          rw [hMA.2.1]; exact hL
        simp only [hserialMakeLockedActive]
        rw [hE]
        simp only [hid]
        simp [hAct, hMA.1, hMA.2.1, hL]
  · intro L ls rw h
    cases hE : (makeInactive (hserialSys L false ls rw sys) s L).2.2 with
    | none =>
        exfalso
        simp only [hserialMakeInactive] at h
        rw [hE] at h
        simp at h
    | some e =>
        have he : e = HErr.controllerRefuses rc m := by
          simp only [hserialMakeInactive] at h
          rw [hE] at h
          simpa using h
        subst he
        have hMI := makeInactive_refused (hserialSys L false ls rw sys) s L rc m hE
        have hid := applyHSerialEvents_id L
          (makeInactive (hserialSys L false ls rw sys) s L).2.1
          (hMI.2.2 L).1 (hMI.2.2 L).2
        simp only [hserialMakeInactive]
        simp [hid, hMI.1, hMI.2.1]

/-- Witness for refused_state_unchanged: controller 0 is current and active
and refuses removal; controller 5 fails to become active and to become
locked active, and the observable state is unchanged. -/
theorem refused_state_unchanged_witness :
    (makeActive ⟨fun c => if c = 0 then { willRemoveRefuses := true } else {}, 2⟩
        ⟨some 0, some 0, 0, true⟩ 5).1.activeController = some 0
    ∧ (hserialMakeLockedActive 5 {} (fun _ => true)
        ⟨fun c => if c = 0 then { willRemoveRefuses := true } else {}, 2⟩
        ⟨some 0, some 0, 0, true⟩).1.2.isLocked = false := by
  have h := refused_state_unchanged
    ⟨fun c => if c = 0 then { willRemoveRefuses := true } else {}, 2⟩
    ⟨some 0, some 0, 0, true⟩ 5 0 "The controller refuses to be removed."
  refine ⟨(h.1 (by decide)).2, ?_⟩
  have h2 := h.2.2.2.1 5 {} (fun _ => true) (by decide) rfl rfl (by decide)
  exact h2.2.2.1

/-- C7: the lockable controller refuses with the locked reason exactly when
the transition is externally initiated (no access-management call in
progress, or the access-management call on a different thread) and isLocked
holds; a self-initiated makeInactive proceeds regardless of isLocked, and
once the transition commits didMakeInactive clears both isLocked and the
observed locked-active flag. -/
theorem hserial_lock_refusal (L : Nat) (amc lk ub : Bool) (amt ct n : Nat)
    (rw : Nat → Bool) (ls : HSerialState) (base : Sys) (s : AccessState) :
    ((hserialWillMakeInactive L (transitionInitiatedExternally amc amt ct) lk rw (ub, n)).2
        = some (HErr.controllerRefuses L "The controller is locked.")
      ↔ ((amc = false ∨ amt ≠ ct) ∧ lk = true))
    ∧ (s.activeController = some L →
        (s.numUnreturnedAccessCalls = 0 ∨ rw hserialDrainTimeoutMs = true) →
        (hserialMakeInactive L ls rw base s).2.2 = none
        ∧ (hserialMakeInactive L ls rw base s).1.1.activeController = none
        ∧ (hserialMakeInactive L ls rw base s).1.2.isLocked = false
        ∧ (hserialMakeInactive L ls rw base s).1.2.isLockedActive = false) := by
  constructor
  · cases amc <;> cases lk <;> by_cases hat : amt = ct <;>
      by_cases hn : n = 0 <;> by_cases h10 : rw hserialDrainTimeoutMs = true <;>
        simp [hserialWillMakeInactive, transitionInitiatedExternally,
          waitForAllAccessCallsToReturn, hat, hn, h10]
  · intro hA hdrain
    have hwmi : ((hserialSys L false ls rw base).ctrls L).willMakeInactive
        (s.accessIsUnblocked, s.numUnreturnedAccessCalls) = ((false, 0), none) := by
      rcases hdrain with h0 | h10
      · simp [hserialSys, hserialWillMakeInactive, waitForAllAccessCallsToReturn, h0]
      · by_cases h0 : s.numUnreturnedAccessCalls = 0 <;>
          simp [hserialSys, hserialWillMakeInactive, waitForAllAccessCallsToReturn, h0, h10]
    simp [hserialMakeInactive, makeInactive, hA, performActiveControllerChange,
      performTransition, hwmi, unblockerExit, applyHSerialEvents]

/-- Witness for hserial_lock_refusal: an externally initiated transition on
the locked controller 0 refuses with the locked reason; a self-initiated
makeInactive of the locked-active controller 0 succeeds and clears the
flags. -/
theorem hserial_lock_refusal_witness :
    (hserialWillMakeInactive 0 (transitionInitiatedExternally false 1 1) true
        (fun _ => true) (true, 0)).2
      = some (HErr.controllerRefuses 0 "The controller is locked.")
    ∧ (hserialMakeInactive 0 ⟨true, true, false⟩ (fun _ => true) ⟨fun _ => {}, 1⟩
        ⟨some 0, some 0, 0, true⟩).1.1.activeController = none
    ∧ (hserialMakeInactive 0 ⟨true, true, false⟩ (fun _ => true) ⟨fun _ => {}, 1⟩
        ⟨some 0, some 0, 0, true⟩).1.2.isLocked = false := by
  have h := hserial_lock_refusal 0 false true true 1 1 0 (fun _ => true)
    ⟨true, true, false⟩ ⟨fun _ => {}, 1⟩ ⟨some 0, some 0, 0, true⟩
  exact ⟨h.1.mpr ⟨Or.inl rfl, rfl⟩, (h.2 rfl (Or.inl rfl)).2.1, (h.2 rfl (Or.inl rfl)).2.2.1⟩

/-- A delegation chain has at least one edge. -/
theorem ReachesN.pos {g : Graph} {n c d : Nat} (h : ReachesN g n c d) : 1 ≤ n := by
  cases h with
  | single _ => exact Nat.le_refl 1
  | cons _ _ => exact Nat.le_add_left 1 _

/-- Delegation chains compose. -/
theorem ReachesN.comp {g : Graph} {n m a b c : Nat}
    (h1 : ReachesN g n a b) (h2 : ReachesN g m b c) : ReachesN g (n + m) a c := by
  induction h1 with
  | single hd =>
      rw [Nat.add_comm]
      exact ReachesN.cons hd h2
  | cons hd _ ih =>
      have := ReachesN.cons hd (ih h2)
      rwa [Nat.add_right_comm] at this

/-- Membership in the edge-list graph. -/
theorem mem_graphOfEdges {es : List (Nat × Nat)} {x y : Nat} :
    y ∈ graphOfEdges es x ↔ (x, y) ∈ es := by
  simp only [graphOfEdges, List.mem_map, List.mem_filter]
  constructor
  · rintro ⟨⟨a, b⟩, ⟨hmem, heq⟩, rfl⟩
    simp only [beq_iff_eq] at heq
    subst heq
    exact hmem
  · intro hmem
    exact ⟨(x, y), ⟨hmem, by simp⟩, rfl⟩

/-- The fueled DFS detects exactly the delegation chains that fit in the
fuel. -/
theorem hasAsDelegateOrSubdelegate_iff (g : Graph) :
    ∀ fuel c t, hasAsDelegateOrSubdelegate g fuel c t = true ↔
      ∃ n, 1 ≤ n ∧ n ≤ fuel ∧ ReachesN g n c t := by
  intro fuel
  induction fuel with
  | zero =>
      intro c t
      simp only [hasAsDelegateOrSubdelegate]
      constructor
      · intro h
        exact absurd h (by simp)
      · rintro ⟨n, h1, h0, _⟩
        omega
  | succ f ih =>
      intro c t
      simp only [hasAsDelegateOrSubdelegate, List.any_eq_true, Bool.or_eq_true, beq_iff_eq]
      constructor
      · rintro ⟨x, hx, rfl | hds⟩
        · exact ⟨1, Nat.le_refl 1, by omega, ReachesN.single hx⟩
        · rcases (ih x t).mp hds with ⟨n, h1, hf, hr⟩
          exact ⟨n + 1, by omega, by omega, ReachesN.cons hx hr⟩
      · rintro ⟨n, h1, hf, hr⟩
        cases hr with
        | single hd => exact ⟨t, hd, Or.inl rfl⟩
        | cons hd hr2 =>
            rename_i d m
            refine ⟨d, hd, Or.inr ((ih d t).mpr ⟨m, hr2.pos, by omega, hr2⟩)⟩

/-- Delegation chains are chains of edges in the List.Chain sense. -/
theorem reachesN_iff_chain {g : Graph} {n c t : Nat} :
    ReachesN g n c t ↔
      ∃ l : List Nat, (l ++ [t]).length = n
        ∧ List.Chain (fun a b => b ∈ g a) c (l ++ [t]) := by
  constructor
  · intro h
    induction h with
    | single hd => exact ⟨[], rfl, List.Chain.cons hd List.Chain.nil⟩
    | cons hd _ ih =>
        rcases ih with ⟨l, hlen, hch⟩
        rename_i d e m hr
        exact ⟨d :: l, by simp_all, List.Chain.cons hd hch⟩
  · rintro ⟨l, hlen, hch⟩
    induction l generalizing c n with
    | nil =>
        simp only [List.nil_append, List.length_cons, List.length_nil] at hlen
        rcases List.chain_cons.mp hch with ⟨hd, _⟩
        subst hlen
        exact ReachesN.single hd
    | cons x l2 ih =>
        rcases List.chain_cons.mp hch with ⟨hd, hch2⟩
        simp only [List.cons_append, List.length_cons] at hlen
        subst hlen
        exact ReachesN.cons hd (ih rfl hch2)

/-- A list that is not duplicate-free splits around a repeated element. -/
theorem not_nodup_decomp {l : List Nat} (h : ¬ l.Nodup) :
    ∃ (x : Nat) (l1 l2 l3 : List Nat), l = l1 ++ x :: l2 ++ x :: l3 := by
  induction l with
  | nil => exact absurd List.nodup_nil h
  | cons a l ih =>
      rw [List.nodup_cons] at h
      by_cases ha : a ∈ l
      · rcases List.append_of_mem ha with ⟨s, t, rfl⟩
        exact ⟨a, [], s, t, rfl⟩
      · have hl : ¬ l.Nodup := fun hn => h ⟨ha, hn⟩
        rcases ih hl with ⟨x, l1, l2, l3, rfl⟩
        exact ⟨x, a :: l1, l2, l3, rfl⟩

/-- A chain over a walk with a repeated vertex yields a delegation cycle. -/
theorem chain_duplicate_cycle {g : Graph} {c : Nat} {l : List Nat}
    (hch : List.Chain (fun a b => b ∈ g a) c l) (hnd : ¬ (c :: l).Nodup) :
    ∃ x m, ReachesN g m x x := by
  rcases not_nodup_decomp hnd with ⟨x, l1, l2, l3, hdec⟩
  have hch' : List.Chain' (fun a b => b ∈ g a) (c :: l) := hch
  have hinf : (x :: (l2 ++ [x])) <:+: (c :: l) := by
    refine ⟨l1, l3, ?_⟩
    rw [hdec]
    simp
  have hcyc : List.Chain (fun a b => b ∈ g a) x (l2 ++ [x]) := hch'.infix hinf
  exact ⟨x, (l2 ++ [x]).length, reachesN_iff_chain.mpr ⟨l2, rfl, hcyc⟩⟩

/-- Every vertex of a walk except the last has an outgoing edge. -/
theorem chain_dropLast_out {g : Graph} :
    ∀ (l : List Nat) (a : Nat), List.Chain (fun u v => v ∈ g u) a l → l ≠ [] →
      ∀ v ∈ (a :: l).dropLast, ∃ w, w ∈ g v := by
  intro l
  induction l with
  | nil => intro a _ hne; exact absurd rfl hne
  | cons b l2 ih =>
      intro a hch _ v hv
      rcases List.chain_cons.mp hch with ⟨hab, hch2⟩
      rcases l2 with _ | ⟨b2, l3⟩
      · simp only [List.dropLast_cons₂, List.dropLast_single, List.mem_cons,
          List.not_mem_nil, or_false] at hv
        subst hv
        exact ⟨b, hab⟩
      · simp only [List.dropLast_cons₂, List.mem_cons] at hv
        rcases hv with rfl | hv
        · exact ⟨b, hab⟩
        · exact ih b hch2 (by simp) v (by simpa using hv)

/-- In an acyclic edge-list graph every delegation chain is no longer than
the number of registered edges. -/
theorem acyclic_reachesN_le {es : List (Nat × Nat)} {n c t : Nat}
    (hac : Acyclic (graphOfEdges es)) (hr : ReachesN (graphOfEdges es) n c t) :
    n ≤ es.length := by
  rcases reachesN_iff_chain.mp hr with ⟨l, hlen, hch⟩
  have hnd : (c :: (l ++ [t])).Nodup := by
    by_contra hnot
    rcases chain_duplicate_cycle hch hnot with ⟨x, m, hcyc⟩
    exact hac x m hcyc
  have hdl : (c :: (l ++ [t])).dropLast = c :: l := by
    simp [List.dropLast_concat, List.dropLast_cons_of_ne_nil]
  have hndcl : (c :: l).Nodup := by
    have := List.Nodup.sublist (List.dropLast_sublist (c :: (l ++ [t]))) hnd
    rwa [hdl] at this
  have hsub : (c :: l) ⊆ es.map Prod.fst := by
    intro v hv
    have hout := chain_dropLast_out (l ++ [t]) c hch (by simp) v (by rw [hdl]; exact hv)
    rcases hout with ⟨w, hw⟩
    rcases mem_graphOfEdges.mp hw with hmem
    exact List.mem_map.mpr ⟨(v, w), hmem, rfl⟩
  have hle : (c :: l).length ≤ (es.map Prod.fst).length :=
    (List.subperm_of_subset hndcl hsub).length_le
  simp only [List.length_cons, List.length_map] at hle
  simp only [List.length_append, List.length_cons, List.length_nil] at hlen
  omega

/-- For acyclic edge-list graphs, any fuel above the edge count makes the
DFS decide reachability. -/
theorem acyclic_hasDS_iff {es : List (Nat × Nat)} {f c t : Nat}
    (hac : Acyclic (graphOfEdges es)) (hf : es.length + 1 ≤ f) :
    hasAsDelegateOrSubdelegate (graphOfEdges es) f c t = true ↔
      ∃ n, ReachesN (graphOfEdges es) n c t := by
  rw [hasAsDelegateOrSubdelegate_iff]
  constructor
  · rintro ⟨n, _, _, hr⟩
    exact ⟨n, hr⟩
  · rintro ⟨n, hr⟩
    exact ⟨n, hr.pos, by have := acyclic_reachesN_le hac hr; omega, hr⟩

/-- Membership in the graph after registering one more edge. -/
theorem mem_graphOfEdges_append {es : List (Nat × Nat)} {c d x y : Nat} :
    y ∈ graphOfEdges (es ++ [(c, d)]) x ↔
      y ∈ graphOfEdges es x ∨ (x = c ∧ y = d) := by
  rw [mem_graphOfEdges, List.mem_append]
  simp [mem_graphOfEdges, Prod.ext_iff]

/-- A delegation chain in the graph with one extra edge (c, d) either already
exists, or passes through the new edge: its start reaches c (or is c) and d
reaches its end (or is d). -/
theorem reachesN_append_edge {es : List (Nat × Nat)} {c d n x y : Nat}
    (hr : ReachesN (graphOfEdges (es ++ [(c, d)])) n x y) :
    (∃ m, ReachesN (graphOfEdges es) m x y)
    ∨ ((x = c ∨ ∃ m, ReachesN (graphOfEdges es) m x c)
        ∧ (d = y ∨ ∃ m, ReachesN (graphOfEdges es) m d y)) := by
  induction hr with
  | single hd =>
      rcases mem_graphOfEdges_append.mp hd with hold | ⟨rfl, rfl⟩
      · exact Or.inl ⟨1, ReachesN.single hold⟩
      · exact Or.inr ⟨Or.inl rfl, Or.inl rfl⟩
  | cons hd _ ih =>
      rename_i a z e m hrz
      rcases mem_graphOfEdges_append.mp hd with hold | ⟨rfl, rfl⟩
      · rcases ih with ⟨m2, hr2⟩ | ⟨hzc, hdy⟩
        · exact Or.inl ⟨m2 + 1, ReachesN.cons hold hr2⟩
        · refine Or.inr ⟨?_, hdy⟩
          rcases hzc with rfl | ⟨m2, hr2⟩
          · exact Or.inr ⟨1, ReachesN.single hold⟩
          · exact Or.inr ⟨m2 + 1, ReachesN.cons hold hr2⟩
      · rcases ih with ⟨m2, hr2⟩ | ⟨hzc, hdy⟩
        · exact Or.inr ⟨Or.inl rfl, Or.inr ⟨m2, hr2⟩⟩
        · exact Or.inr ⟨Or.inl rfl, hdy⟩

/-- The empty graph is acyclic. -/
theorem acyclic_nil : Acyclic (graphOfEdges []) := by
  intro c n hr
  cases hr with
  | single hd => simp [graphOfEdges] at hd
  | cons hd _ => simp [graphOfEdges] at hd

/-- Every delegate graph built through registerDelegate is acyclic: the
rejection of self-delegation and of delegates that transitively delegate
back preserves acyclicity at every step. -/
theorem built_acyclic {es : List (Nat × Nat)} (h : Built es) :
    Acyclic (graphOfEdges es) := by
  induction h with
  | nil => exact acyclic_nil
  | step hb hreg ih =>
      rename_i es0 es1 c d
      rcases d with _ | d
      · simp [registerDelegate] at hreg
      · by_cases hcd : c = d
        · simp [registerDelegate, hcd] at hreg
        · by_cases hfd : hasAsFirstDegreeDelegate (graphOfEdges es0) c d = true
          · simp [registerDelegate, hcd, hfd] at hreg
          · by_cases hds : hasAsDelegateOrSubdelegate (graphOfEdges es0)
                (es0.length + 1) d c = true
            · simp [registerDelegate, hcd, hfd, hds] at hreg
            · have hes1 : es1 = es0 ++ [(c, d)] := by
                simp [registerDelegate, hcd, hfd, hds] at hreg
                exact hreg.symm
              subst hes1
              have hnreach : ¬ ∃ m, ReachesN (graphOfEdges es0) m d c := by
                intro hex
                exact hds ((acyclic_hasDS_iff ih (Nat.le_refl _)).mpr hex)
              intro x n hr
              rcases reachesN_append_edge hr with ⟨m, hr2⟩ | ⟨hxc, hdx⟩
              · exact ih x m hr2
              · rcases hxc with rfl | ⟨m1, hr1⟩
                · rcases hdx with rfl | ⟨m2, hr2⟩
                  · exact hcd rfl
                  · exact hnreach ⟨m2, hr2⟩
                · rcases hdx with rfl | ⟨m2, hr2⟩
                  · exact hnreach ⟨m1, hr1⟩
                  · exact hnreach ⟨m2 + m1, hr2.comp hr1⟩

/-- Members of appendDelegatesOfDegree at a positive degree are reachable by
chains of exactly that length. -/
theorem appendDelegatesOfDegree_mem {g : Graph} :
    ∀ (n c x : Nat), x ∈ appendDelegatesOfDegree g c n →
      (n = 0 ∧ x = c) ∨ ReachesN g n c x := by
  intro n
  induction n with
  | zero =>
      intro c x hx
      simp only [appendDelegatesOfDegree, List.mem_singleton] at hx
      exact Or.inl ⟨rfl, hx⟩
  | succ m ih =>
      intro c x hx
      simp only [appendDelegatesOfDegree, List.mem_flatMap] at hx
      rcases hx with ⟨y, hy, hxy⟩
      rcases ih y x hxy with ⟨rfl, rfl⟩ | hr
      · exact Or.inr (ReachesN.single hy)
      · exact Or.inr (ReachesN.cons hy hr)

/-- The accumulator is a prefix of the result of the degree loop. -/
theorem getControllersListAux_prefix (g : Graph) (c : Nat) :
    ∀ (fuel degree : Nat) (acc : List Nat),
      ∃ suf, getControllersListAux g c fuel degree acc = acc ++ suf := by
  intro fuel
  induction fuel with
  | zero => exact fun degree acc => ⟨[], by simp [getControllersListAux]⟩
  | succ f ih =>
      intro degree acc
      by_cases hlen : 0 < (appendDelegatesOfDegree g c degree).length
      · rcases ih (degree + 1) (acc ++ appendDelegatesOfDegree g c degree) with ⟨suf, hsuf⟩
        exact ⟨appendDelegatesOfDegree g c degree ++ suf, by
          simp only [getControllersListAux, hlen, if_pos]
          rw [hsuf, List.append_assoc]⟩
      · exact ⟨[], by simp [getControllersListAux, hlen]⟩

/-- C9: for every delegate graph built exclusively through registerDelegate
(which rejects a NULL delegate, self-delegation, duplicate first-degree
delegates and cycles), the recursive traversals terminate: the DFS
hasAsDelegateOrSubdelegate computes the same decidable reachability
predicate for every fuel past the number of registered edges, the degree
loop of getControllersList exits because appendDelegatesOfDegree is empty at
a degree bounded by the number of edges, and getControllersList returns a
non-empty list whose first element is the controller itself. -/
theorem built_traversals_terminate (es : List (Nat × Nat)) (h : Built es) :
    (∀ c t f, es.length + 1 ≤ f →
      (hasAsDelegateOrSubdelegate (graphOfEdges es) f c t = true ↔
        ∃ n, ReachesN (graphOfEdges es) n c t))
    ∧ (∀ c, appendDelegatesOfDegree (graphOfEdges es) c (es.length + 1) = [])
    ∧ (∀ c fuel, getControllersList (graphOfEdges es) fuel c ≠ []
        ∧ (getControllersList (graphOfEdges es) fuel c).head? = some c) := by
  have hac := built_acyclic h
  refine ⟨fun c t f hf => acyclic_hasDS_iff hac hf, fun c => ?_, fun c fuel => ?_⟩
  · rw [List.eq_nil_iff_forall_not_mem]
    intro x hx
    rcases appendDelegatesOfDegree_mem (es.length + 1) c x hx with ⟨h0, _⟩ | hr
    · omega
    · have := acyclic_reachesN_le hac hr
      omega
  · rcases getControllersListAux_prefix (graphOfEdges es) c fuel 1 [c] with ⟨suf, hsuf⟩
    unfold getControllersList
    rw [hsuf]
    simp

/-- Witness for built_traversals_terminate: the chain graph built by
registering delegate 1 on controller 0 and delegate 2 on controller 1. -/
theorem built_traversals_terminate_witness :
    appendDelegatesOfDegree (graphOfEdges [(0, 1), (1, 2)]) 0 3 = []
    ∧ (getControllersList (graphOfEdges [(0, 1), (1, 2)]) 5 0).head? = some 0 := by
  have hb : Built [(0, 1), (1, 2)] :=
    @Built.step [(0, 1)] [(0, 1), (1, 2)] 1 (some 2)
      (@Built.step [] [(0, 1)] 0 (some 1) Built.nil (by decide)) (by decide)
  exact ⟨(built_traversals_terminate _ hb).2.1 0,
    ((built_traversals_terminate _ hb).2.2 0 5).2⟩

end HSerial
